import Mathlib

/-!
Verification of the hook-execution operation engine (the `operation`
package exercised by the RunHookSuite tests): persisted `State`, the
Run/Retry/Skip operation variants, and their Prepare/Execute/Commit
phases, together with the collaborator side effects (resolved-flag
clearing, hook preparation, runner construction, execution-lock
handling, notifications, hook commit).

The engine implementation itself is not present in the repository
slice (only its test suite is), so the phase functions below are
modelled from the spec (sections 3, 4.2, 4.3, 4.4 and 7), and checked
against the concrete expectations pinned down by the test suite.
Collaborator behaviour is supplied as an explicit environment value,
and collaborator invocations are recorded as an event trace so that
claims about ordering, notifications and lock discipline can be
stated.
-/

namespace Operation

/-- Lifecycle hook kinds (`hooks.Kind`). `Action` stands for the
"any other kind" row of the commit queuing table. -/
inductive HooksKind where
  | Install
  | ConfigChanged
  | Start
  | Stop
  | RelationJoined
  | RelationChanged
  | RelationDeparted
  | RelationBroken
  | CollectMetrics
  | UpgradeCharm
  | Action
deriving DecidableEq, Repr

/-- Hook identity (`hook.Info`): lifecycle kind plus contextual data
such as the remote unit name for relation hooks. -/
structure Info where
  kind : HooksKind
  remoteUnit : String
deriving DecidableEq, Repr

/-- `operation.Kind` of a persisted state: a hook is pending/in-flight
(`RunHook`) or nothing is pending (`Continue`). -/
inductive Kind where
  | RunHook
  | Continue
deriving DecidableEq, Repr

/-- `operation.Step` resumption marker. -/
inductive Step where
  | Pending
  | Queued
  | Done
deriving DecidableEq, Repr

/-- Persisted `operation.State`: the minimal durable record of
progress. `collectMetricsTime` is a Unix-seconds timestamp. -/
structure State where
  kind : Kind
  step : Step
  hook : Option Info
  started : Bool
  collectMetricsTime : Int
deriving DecidableEq, Repr

/-- The three operation variants produced by the factory. -/
inductive Variant where
  | Run
  | Retry
  | Skip
deriving DecidableEq, Repr

/-- Typed outcome reported by the runner for one hook execution. -/
inductive RunOutcome where
  | success
  | missingHook
  | requeueAndReboot
  | reboot
  | failure (msg : String)
deriving DecidableEq, Repr

/-- The engine's error results: a collaborator error propagated
verbatim (carrying its message), or one of the distinguished sentinel
conditions. -/
inductive OpError where
  | collab (msg : String)
  | ErrSkipExecute
  | ErrHookFailed
  | ErrNeedsReboot
deriving DecidableEq, Repr

/-- One collaborator invocation, recorded in order of occurrence. -/
inductive Event where
  | clearResolvedFlag
  | prepareHook (info : Info)
  | newHookRunner (info : Info)
  | acquireLock (message : String)
  | releaseLock
  | runHook (name : String)
  | notifyHookCompleted (name : String)
  | notifyHookFailed (name : String)
  | commitHook (info : Info)
deriving DecidableEq, Repr

/-- Behaviour of the collaborators for one phase call: each callback
either succeeds or fails with a message; `prepareHookResult` carries
the hook name on success; `runOutcome` is the runner's report. -/
structure Env where
  clearResolvedFlagErr : Option String
  prepareHookResult : Except String String
  newRunnerErr : Option String
  acquireLockErr : Option String
  runOutcome : RunOutcome
  commitHookErr : Option String

/-- Result of one Execute/Commit phase call: the recorded collaborator
events, the returned state (absent on abort), and the returned error
(absent on plain success). -/
structure PhaseResult where
  events : List Event
  state : Option State
  err : Option OpError
deriving DecidableEq, Repr

/-- Result of a Prepare call: as `PhaseResult`, plus the hook name
obtained from the prepare-hook callback and stored transiently on the
operation for use by Execute. -/
structure PrepareResult where
  events : List Event
  state : Option State
  err : Option OpError
  name : Option String
deriving DecidableEq, Repr

/-- Modelled from the spec (§4.2 steps 3-5): the shared tail of
Prepare for the Run and Retry variants — the engine source
(`worker/uniter/operation` runHook.Prepare) is absent from the
repository slice. Asks the prepare-hook callback for the hook context
(obtaining the hook name), then the runner factory for a runner;
either failure aborts with that error and no state; on success returns
`Kind=RunHook, Step=Pending, Hook=<this hook>` with all other fields
copied unchanged. `pre` is the trace accumulated by earlier steps. -/
def prepareFromRun (env : Env) (info : Info) (st : State) (pre : List Event) :
    PrepareResult :=
  match env.prepareHookResult with
  | Except.error msg =>
    ⟨pre ++ [Event.prepareHook info], none, some (OpError.collab msg), none⟩
  | Except.ok name =>
    match env.newRunnerErr with
    | some msg =>
      ⟨pre ++ [Event.prepareHook info, Event.newHookRunner info],
        none, some (OpError.collab msg), none⟩
    | none =>
      ⟨pre ++ [Event.prepareHook info, Event.newHookRunner info],
        some { kind := Kind.RunHook, step := Step.Pending, hook := some info,
               started := st.started,
               collectMetricsTime := st.collectMetricsTime },
        none, some name⟩

/-- Modelled from the spec (§4.2): Prepare for the three variants —
the engine source (`worker/uniter/operation` Prepare of the Run, Retry
and Skip hook operations) is absent from the repository slice. Retry
and Skip first clear the manually-resolved marker, aborting verbatim
on failure; Skip then immediately signals `ErrSkipExecute` with no
state and never invokes the hook-specific preparation callback; Run
and Retry continue with `prepareFromRun`. -/
def prepare (env : Env) (v : Variant) (info : Info) (st : State) :
    PrepareResult :=
  match v with
  | Variant.Run => prepareFromRun env info st []
  | Variant.Retry =>
    match env.clearResolvedFlagErr with
    | some msg =>
      ⟨[Event.clearResolvedFlag], none, some (OpError.collab msg), none⟩
    | none => prepareFromRun env info st [Event.clearResolvedFlag]
  | Variant.Skip =>
    match env.clearResolvedFlagErr with
    | some msg =>
      ⟨[Event.clearResolvedFlag], none, some (OpError.collab msg), none⟩
    | none =>
      ⟨[Event.clearResolvedFlag], none, some OpError.ErrSkipExecute, none⟩

/-- The state Execute returns when the hook run yields a state: the
input with `Kind=RunHook`, the given step, and `Hook` set to the
operation's own hook identity. -/
def executedState (st : State) (info : Info) (step : Step) : State :=
  { kind := Kind.RunHook, step := step, hook := some info,
    started := st.started, collectMetricsTime := st.collectMetricsTime }

/-- Modelled from the spec (§4.3) and the RunHookSuite Execute tests:
the engine source (`worker/uniter/operation` runHook.Execute) is
absent from the repository slice. Acquires the execution lock with
message "running hook <name>" (failure aborts verbatim, runner never
invoked, nothing to release); then runs the hook and maps the runner
outcome per the §4.3 table, notifying completion/failure as the table
says; the lock release is deferred, so it is the last event on every
path on which acquisition succeeded. `name` is the hook name stored by
Prepare. -/
def execute (env : Env) (info : Info) (name : String) (st : State) :
    PhaseResult :=
  let message := "running hook " ++ name
  match env.acquireLockErr with
  | some msg =>
    ⟨[Event.acquireLock message], none, some (OpError.collab msg)⟩
  | none =>
    let ran : List Event := [Event.acquireLock message, Event.runHook name]
    match env.runOutcome with
    | RunOutcome.success =>
      ⟨ran ++ [Event.notifyHookCompleted name, Event.releaseLock],
        some (executedState st info Step.Done), none⟩
    | RunOutcome.missingHook =>
      ⟨ran ++ [Event.releaseLock],
        some (executedState st info Step.Done), none⟩
    | RunOutcome.requeueAndReboot =>
      ⟨ran ++ [Event.notifyHookCompleted name, Event.releaseLock],
        some (executedState st info Step.Queued),
        some OpError.ErrNeedsReboot⟩
    | RunOutcome.reboot =>
      ⟨ran ++ [Event.notifyHookCompleted name, Event.releaseLock],
        some (executedState st info Step.Done),
        some OpError.ErrNeedsReboot⟩
    | RunOutcome.failure _ =>
      ⟨ran ++ [Event.notifyHookFailed name, Event.releaseLock],
        none, some OpError.ErrHookFailed⟩

/-- Modelled from the spec (§4.4 step 2 table): the next hook queued
after committing a hook of kind `k` with the given current `started`
flag. Install and UpgradeCharm queue ConfigChanged; ConfigChanged
queues Start when not yet started; everything else queues nothing. -/
def queuedHook (k : HooksKind) (started : Bool) : Option Info :=
  match k with
  | HooksKind.Install => some ⟨HooksKind.ConfigChanged, ""⟩
  | HooksKind.UpgradeCharm => some ⟨HooksKind.ConfigChanged, ""⟩
  | HooksKind.ConfigChanged =>
    if started then none else some ⟨HooksKind.Start, ""⟩
  | _ => none

/-- Modelled from the spec (§4.4) and the RunHookSuite Commit tests:
the engine source (`worker/uniter/operation` runHook.Commit) is absent
from the repository slice. Invokes the commit-hook callback (failure
aborts verbatim with no state), then applies the queuing/bookkeeping
table: Start sets `started`, CollectMetrics stamps
`collectMetricsTime` with `now` (the wall clock read during the call);
if a next hook is queued the result is `RunHook/Queued/<next hook>`,
otherwise `Continue/Pending/<committed hook>`. -/
def commit (env : Env) (info : Info) (st : State) (now : Int) : PhaseResult :=
  match env.commitHookErr with
  | some msg =>
    ⟨[Event.commitHook info], none, some (OpError.collab msg)⟩
  | none =>
    let started := if info.kind = HooksKind.Start then true else st.started
    let cmt :=
      if info.kind = HooksKind.CollectMetrics then now
      else st.collectMetricsTime
    match queuedHook info.kind st.started with
    | some h =>
      ⟨[Event.commitHook info],
        some { kind := Kind.RunHook, step := Step.Queued, hook := some h,
               started := started, collectMetricsTime := cmt }, none⟩
    | none =>
      ⟨[Event.commitHook info],
        some { kind := Kind.Continue, step := Step.Pending,
               hook := some info, started := started,
               collectMetricsTime := cmt }, none⟩

/-- Modelled from the spec (§4.1, §9): Commit indexed by the operation
variant. The spec states that Execute and Commit are shared verbatim
by the Run, Retry and Skip variants — a skip is "treat this hook as
committed without running it" — so the variant is accepted and
ignored. -/
def commitV (_ : Variant) (env : Env) (info : Info) (st : State)
    (now : Int) : PhaseResult :=
  commit env info st now

/-- Number of lock releases recorded in a trace. -/
def countRelease : List Event → Nat
  | [] => 0
  | Event.releaseLock :: rest => countRelease rest + 1
  | _ :: rest => countRelease rest

/-- Number of runner invocations recorded in a trace. -/
def countRuns : List Event → Nat
  | [] => 0
  | Event.runHook _ :: rest => countRuns rest + 1
  | _ :: rest => countRuns rest

/-- Folding a sequence of successful commits: each commit's returned
state feeds the next; an aborted commit yields no state. The clock
reading for each commit is supplied alongside its hook. -/
def commitSeq (env : Env) (st : State) : List (Info × Int) → Option State
  | [] => some st
  | (info, now) :: rest =>
    match (commit env info st now).state with
    | none => none
    | some st2 => commitSeq env st2 rest

/-- The hook identity used throughout the test suite. -/
def cfgInfo : Info := ⟨HooksKind.ConfigChanged, ""⟩

/-- A blank input state (`operation.State{}`): no hook recorded, not
started, zero metrics timestamp. -/
def blankState : State :=
  ⟨Kind.Continue, Step.Pending, none, false, 0⟩

/-- The `overwriteState` fixture of the test suite: accumulated fields
set to recognisable values so that preservation is visible. -/
def overwriteState : State :=
  ⟨Kind.Continue, Step.Pending, some ⟨HooksKind.Install, ""⟩, true, 1234567⟩

/-- An environment in which every collaborator succeeds and the runner
reports success; the prepare-hook callback returns the test suite's
hook name. -/
def envAllOk : Env :=
  ⟨none, Except.ok "some-hook-name", none, none, RunOutcome.success, none⟩

/-- As `envAllOk` but the runner reports the hook as missing. -/
def envMissing : Env :=
  ⟨none, Except.ok "some-hook-name", none, none, RunOutcome.missingHook, none⟩

example :
    (prepare envAllOk Variant.Run cfgInfo blankState).state =
      some ⟨Kind.RunHook, Step.Pending, some cfgInfo, false, 0⟩ := by
  decide

example :
    (execute envMissing cfgInfo "some-hook-name" blankState).state =
      some ⟨Kind.RunHook, Step.Done, some cfgInfo, false, 0⟩ := by
  decide

example :
    (commit envAllOk cfgInfo blankState 0).state =
      some ⟨Kind.RunHook, Step.Queued, some ⟨HooksKind.Start, ""⟩, false, 0⟩ := by
  decide

example :
    (commit envAllOk ⟨HooksKind.Start, ""⟩ overwriteState 0).state =
      some ⟨Kind.Continue, Step.Pending, some ⟨HooksKind.Start, ""⟩, true,
        1234567⟩ := by
  decide

/-- Any successful commit carries a true `started` flag through:
`started` is computed as the old flag or-ed with the Start test. -/
theorem commit_started_mono (env : Env) (info : Info) (st : State) (now : Int)
    (out : State) (hst : st.started = true)
    (h : (commit env info st now).state = some out) : out.started = true := by
  cases hec : env.commitHookErr with
  | some msg => simp [commit, hec] at h
  | none =>
    cases hq : queuedHook info.kind st.started with
    | some hnext =>
      simp only [commit, hec, hq, Option.some.injEq] at h
      subst h
      simp [hst]
    | none =>
      simp only [commit, hec, hq, Option.some.injEq] at h
      subst h
      simp [hst]

/-- Once `started` is true it stays true along any sequence of
successful commits. -/
theorem commitSeq_started_mono (env : Env) :
    ∀ (l : List (Info × Int)) (st st2 : State), st.started = true →
      commitSeq env st l = some st2 → st2.started = true := by
  intro l
  induction l with
  | nil =>
    intro st st2 hst h
    simp only [commitSeq, Option.some.injEq] at h
    subst h
    exact hst
  | cons p rest ih =>
    intro st st2 hst h
    obtain ⟨info, now⟩ := p
    simp only [commitSeq] at h
    cases hcs : (commit env info st now).state with
    | none => simp [hcs] at h
    | some st1 =>
      simp only [hcs] at h
      exact ih st1 st2 (commit_started_mono env info st now st1 hst hcs) h

/-- C1: Commit's queuing decision is a deterministic function of the
committed hook kind and `Started`: Install and UpgradeCharm queue
ConfigChanged; ConfigChanged with Started=false queues Start;
ConfigChanged with Started=true, Start, Stop, the four relation hooks
and CollectMetrics queue nothing. When a hook is queued the returned
state is `Kind=RunHook, Step=Queued, Hook=<next hook>`; when none is
queued it is `Kind=Continue, Step=Pending, Hook=<just-committed
hook>`. The statement is quantified over the operation variant, so it
holds identically for Run, Retry and Skip. -/
theorem commit_queuing_table (v : Variant) (env : Env) (ru : String)
    (st : State) (now : Int) (hok : env.commitHookErr = none) :
    ((commitV v env ⟨HooksKind.Install, ru⟩ st now).state =
        some ⟨Kind.RunHook, Step.Queued, some ⟨HooksKind.ConfigChanged, ""⟩,
          st.started, st.collectMetricsTime⟩)
  ∧ ((commitV v env ⟨HooksKind.UpgradeCharm, ru⟩ st now).state =
        some ⟨Kind.RunHook, Step.Queued, some ⟨HooksKind.ConfigChanged, ""⟩,
          st.started, st.collectMetricsTime⟩)
  ∧ (st.started = false →
      (commitV v env ⟨HooksKind.ConfigChanged, ru⟩ st now).state =
        some ⟨Kind.RunHook, Step.Queued, some ⟨HooksKind.Start, ""⟩,
          false, st.collectMetricsTime⟩)
  ∧ (st.started = true →
      (commitV v env ⟨HooksKind.ConfigChanged, ru⟩ st now).state =
        some ⟨Kind.Continue, Step.Pending,
          some ⟨HooksKind.ConfigChanged, ru⟩, true, st.collectMetricsTime⟩)
  ∧ ((commitV v env ⟨HooksKind.Start, ru⟩ st now).state =
        some ⟨Kind.Continue, Step.Pending, some ⟨HooksKind.Start, ru⟩,
          true, st.collectMetricsTime⟩)
  ∧ ((commitV v env ⟨HooksKind.Stop, ru⟩ st now).state =
        some ⟨Kind.Continue, Step.Pending, some ⟨HooksKind.Stop, ru⟩,
          st.started, st.collectMetricsTime⟩)
  ∧ (∀ k, (k = HooksKind.RelationJoined ∨ k = HooksKind.RelationChanged ∨
        k = HooksKind.RelationDeparted ∨ k = HooksKind.RelationBroken) →
      (commitV v env ⟨k, ru⟩ st now).state =
        some ⟨Kind.Continue, Step.Pending, some ⟨k, ru⟩,
          st.started, st.collectMetricsTime⟩)
  ∧ ((commitV v env ⟨HooksKind.CollectMetrics, ru⟩ st now).state =
        some ⟨Kind.Continue, Step.Pending,
          some ⟨HooksKind.CollectMetrics, ru⟩, st.started, now⟩) := by
  refine ⟨?_, ?_, ?_, ?_, ?_, ?_, ?_, ?_⟩
  · simp [commitV, commit, queuedHook, hok]
  · simp [commitV, commit, queuedHook, hok]
  · intro hs; simp [commitV, commit, queuedHook, hok, hs]
  · intro hs; simp [commitV, commit, queuedHook, hok, hs]
  · simp [commitV, commit, queuedHook, hok]
  · simp [commitV, commit, queuedHook, hok]
  · intro k hk
    rcases hk with h | h | h | h <;> subst h <;>
      simp [commitV, commit, queuedHook, hok]
  · simp [commitV, commit, queuedHook, hok]

/-- Witness for C1: committing ConfigChanged from the blank state
(Started=false) queues the Start hook. -/
theorem commit_queuing_table_witness :
    (commitV Variant.Run envAllOk ⟨HooksKind.ConfigChanged, ""⟩ blankState
        5).state =
      some ⟨Kind.RunHook, Step.Queued, some ⟨HooksKind.Start, ""⟩, false, 0⟩ :=
  (commit_queuing_table Variant.Run envAllOk "" blankState 5 rfl).2.2.1 rfl

/-- C3: `Started` is monotonic. From Started=false, a successful
commit turns it true exactly when the committed hook is Start; a
successful commit from Started=true leaves it true whatever the hook
kind; and along any sequence of successful commits, once true it
stays true. -/
theorem started_monotonic (env : Env) (info : Info) (st : State) (now : Int)
    (hok : env.commitHookErr = none) :
    (st.started = false → ∀ out, (commit env info st now).state = some out →
        (out.started = true ↔ info.kind = HooksKind.Start))
  ∧ (∀ out, st.started = true → (commit env info st now).state = some out →
        out.started = true)
  ∧ (∀ (l : List (Info × Int)) (st2 : State), st.started = true →
        commitSeq env st l = some st2 → st2.started = true) := by
  refine ⟨?_, ?_, ?_⟩
  · intro hst out h
    cases hq : queuedHook info.kind st.started with
    | some hnext =>
      simp only [commit, hok, hq, Option.some.injEq] at h
      subst h
      simp [hst]
    | none =>
      simp only [commit, hok, hq, Option.some.injEq] at h
      subst h
      simp [hst]
  · intro out hst h
    exact commit_started_mono env info st now out hst h
  · intro l st2 hst h
    exact commitSeq_started_mono env l st st2 hst h

/-- Witness for C3: committing Start from the blank state yields a
state whose `started` flag is true, and that is equivalent to the
committed kind being Start. -/
theorem started_monotonic_witness :
    (⟨Kind.Continue, Step.Pending, some ⟨HooksKind.Start, ""⟩, true,
        (0 : Int)⟩ : State).started = true ↔
      (⟨HooksKind.Start, ""⟩ : Info).kind = HooksKind.Start :=
  (started_monotonic envAllOk ⟨HooksKind.Start, ""⟩ blankState 5 rfl).1 rfl
    ⟨Kind.Continue, Step.Pending, some ⟨HooksKind.Start, ""⟩, true, 0⟩ rfl

/-- C8: a successful CollectMetrics commit stamps
`collectMetricsTime` with the clock value read during the call, which
therefore lies between any wall-clock readings taken immediately
before and after; every other field follows the nothing-queued rule
(`Kind=Continue, Step=Pending, Hook=the CollectMetrics hook`,
`started` unchanged). A successful commit of any other hook kind
preserves `collectMetricsTime` verbatim. -/
theorem collectMetrics_timestamp (v : Variant) (env : Env) (ru : String)
    (st : State) (now tBefore tAfter : Int)
    (hok : env.commitHookErr = none)
    (h1 : tBefore ≤ now) (h2 : now ≤ tAfter) :
    (∃ out,
      (commitV v env ⟨HooksKind.CollectMetrics, ru⟩ st now).state = some out ∧
      tBefore ≤ out.collectMetricsTime ∧ out.collectMetricsTime ≤ tAfter ∧
      out.kind = Kind.Continue ∧ out.step = Step.Pending ∧
      out.hook = some ⟨HooksKind.CollectMetrics, ru⟩ ∧
      out.started = st.started)
  ∧ (∀ info out, info.kind ≠ HooksKind.CollectMetrics →
      (commitV v env info st now).state = some out →
      out.collectMetricsTime = st.collectMetricsTime) := by
  constructor
  · refine ⟨⟨Kind.Continue, Step.Pending,
      some ⟨HooksKind.CollectMetrics, ru⟩, st.started, now⟩,
      ?_, h1, h2, rfl, rfl, rfl, rfl⟩
    simp [commitV, commit, queuedHook, hok]
  · intro info out hne h
    cases hq : queuedHook info.kind st.started with
    | some hnext =>
      simp only [commitV, commit, hok, hq, Option.some.injEq] at h
      subst h
      simp [hne]
    | none =>
      simp only [commitV, commit, hok, hq, Option.some.injEq] at h
      subst h
      simp [hne]

/-- Witness for C8: a commit of Install (not CollectMetrics) from the
blank state preserves the zero metrics timestamp. -/
theorem collectMetrics_timestamp_witness :
    (⟨Kind.RunHook, Step.Queued, some ⟨HooksKind.ConfigChanged, ""⟩, false,
        (0 : Int)⟩ : State).collectMetricsTime =
      blankState.collectMetricsTime :=
  (collectMetrics_timestamp Variant.Run envAllOk "" blankState 5 3 9 rfl
      (by decide) (by decide)).2 ⟨HooksKind.Install, ""⟩
    ⟨Kind.RunHook, Step.Queued, some ⟨HooksKind.ConfigChanged, ""⟩, false, 0⟩
    (by decide) rfl

/-- A successful Prepare tail (Run/Retry) copies `started` and
`collectMetricsTime` from the input. -/
theorem prepareFromRun_state_frame (env : Env) (info : Info) (st : State)
    (pre : List Event) (out : State)
    (h : (prepareFromRun env info st pre).state = some out) :
    out.started = st.started ∧
      out.collectMetricsTime = st.collectMetricsTime := by
  cases hp : env.prepareHookResult with
  | error msg => simp [prepareFromRun, hp] at h
  | ok nm =>
    cases hr : env.newRunnerErr with
    | some msg => simp [prepareFromRun, hp, hr] at h
    | none =>
      simp only [prepareFromRun, hp, hr, Option.some.injEq] at h
      subst h
      exact ⟨rfl, rfl⟩

/-- Every state Execute returns is the input state with
`Kind=RunHook`, `Hook=<the operation's hook>`, and step Done or
Queued. -/
theorem execute_state_cases (env : Env) (info : Info) (name : String)
    (st : State) (out : State)
    (h : (execute env info name st).state = some out) :
    out = executedState st info Step.Done ∨
      out = executedState st info Step.Queued := by
  cases hl : env.acquireLockErr with
  | some msg => simp [execute, hl] at h
  | none =>
    cases ho : env.runOutcome with
    | success =>
      simp only [execute, hl, ho, Option.some.injEq] at h
      exact Or.inl h.symm
    | missingHook =>
      simp only [execute, hl, ho, Option.some.injEq] at h
      exact Or.inl h.symm
    | requeueAndReboot =>
      simp only [execute, hl, ho, Option.some.injEq] at h
      exact Or.inr h.symm
    | reboot =>
      simp only [execute, hl, ho, Option.some.injEq] at h
      exact Or.inl h.symm
    | failure msg => simp [execute, hl, ho] at h

/-- C2: every phase call that returns a state carries `started` and
`collectMetricsTime` forward unchanged, except where a specific
commit rule updates them: a Start commit sets `started` to true and a
CollectMetrics commit stamps `collectMetricsTime` with the clock
value; no phase drops these accumulated fields. -/
theorem fields_carried_forward (env : Env) (v : Variant) (info : Info)
    (name : String) (st : State) (now : Int) :
    (∀ out, (prepare env v info st).state = some out →
        out.started = st.started ∧
        out.collectMetricsTime = st.collectMetricsTime)
  ∧ (∀ out, (execute env info name st).state = some out →
        out.started = st.started ∧
        out.collectMetricsTime = st.collectMetricsTime)
  ∧ (∀ out, (commitV v env info st now).state = some out →
        (info.kind ≠ HooksKind.Start → out.started = st.started)
      ∧ (info.kind = HooksKind.Start → out.started = true)
      ∧ (info.kind ≠ HooksKind.CollectMetrics →
          out.collectMetricsTime = st.collectMetricsTime)
      ∧ (info.kind = HooksKind.CollectMetrics →
          out.collectMetricsTime = now)) := by
  refine ⟨?_, ?_, ?_⟩
  · intro out h
    cases v with
    | Run => exact prepareFromRun_state_frame env info st [] out h
    | Retry =>
      cases hc : env.clearResolvedFlagErr with
      | some msg => simp [prepare, hc] at h
      | none =>
        simp only [prepare, hc] at h
        exact prepareFromRun_state_frame env info st _ out h
    | Skip =>
      cases hc : env.clearResolvedFlagErr with
      | some msg => simp [prepare, hc] at h
      | none => simp [prepare, hc] at h
  · intro out h
    rcases execute_state_cases env info name st out h with h1 | h1 <;>
      subst h1 <;> exact ⟨rfl, rfl⟩
  · intro out h
    cases hec : env.commitHookErr with
    | some msg => simp [commitV, commit, hec] at h
    | none =>
      cases hq : queuedHook info.kind st.started with
      | some hnext =>
        simp only [commitV, commit, hec, hq, Option.some.injEq] at h
        subst h
        refine ⟨fun hne => ?_, fun he => ?_, fun hne => ?_, fun he => ?_⟩
        · simp [hne]
        · simp [he]
        · simp [hne]
        · simp [he]
      | none =>
        simp only [commitV, commit, hec, hq, Option.some.injEq] at h
        subst h
        refine ⟨fun hne => ?_, fun he => ?_, fun hne => ?_, fun he => ?_⟩
        · simp [hne]
        · simp [he]
        · simp [hne]
        · simp [he]

/-- Witness for C2: a successful Prepare of the Run variant on the
`overwriteState` fixture preserves Started=true and the 1234567
metrics timestamp. -/
theorem fields_carried_forward_witness :
    (⟨Kind.RunHook, Step.Pending, some cfgInfo, true,
        (1234567 : Int)⟩ : State).started = overwriteState.started ∧
      (⟨Kind.RunHook, Step.Pending, some cfgInfo, true,
        (1234567 : Int)⟩ : State).collectMetricsTime =
        overwriteState.collectMetricsTime :=
  (fields_carried_forward envAllOk Variant.Run cfgInfo "some-hook-name"
      overwriteState 5).1
    ⟨Kind.RunHook, Step.Pending, some cfgInfo, true, 1234567⟩ rfl

/-- C4: with the execution lock acquired, Execute maps the runner
outcome exactly as the §4.3 table says: success gives `Step=Done`
with no error and a completed notification; a missing hook gives
`Step=Done` with no error and neither notification; requeue-and-
reboot gives `Step=Queued` with `ErrNeedsReboot` and a completed
notification; plain reboot gives `Step=Done` with `ErrNeedsReboot`
and a completed notification; any other runner error gives no state,
`ErrHookFailed`, a failed notification and no completed
notification. -/
theorem execute_outcome_map (env : Env) (info : Info) (name : String)
    (st : State) (hlock : env.acquireLockErr = none) :
    (env.runOutcome = RunOutcome.success →
        (execute env info name st).state =
          some (executedState st info Step.Done) ∧
        (execute env info name st).err = none ∧
        Event.notifyHookCompleted name ∈ (execute env info name st).events ∧
        Event.notifyHookFailed name ∉ (execute env info name st).events)
  ∧ (env.runOutcome = RunOutcome.missingHook →
        (execute env info name st).state =
          some (executedState st info Step.Done) ∧
        (execute env info name st).err = none ∧
        Event.notifyHookCompleted name ∉ (execute env info name st).events ∧
        Event.notifyHookFailed name ∉ (execute env info name st).events)
  ∧ (env.runOutcome = RunOutcome.requeueAndReboot →
        (execute env info name st).state =
          some (executedState st info Step.Queued) ∧
        (execute env info name st).err = some OpError.ErrNeedsReboot ∧
        Event.notifyHookCompleted name ∈ (execute env info name st).events)
  ∧ (env.runOutcome = RunOutcome.reboot →
        (execute env info name st).state =
          some (executedState st info Step.Done) ∧
        (execute env info name st).err = some OpError.ErrNeedsReboot ∧
        Event.notifyHookCompleted name ∈ (execute env info name st).events)
  ∧ (∀ msg, env.runOutcome = RunOutcome.failure msg →
        (execute env info name st).state = none ∧
        (execute env info name st).err = some OpError.ErrHookFailed ∧
        Event.notifyHookFailed name ∈ (execute env info name st).events ∧
        Event.notifyHookCompleted name ∉
          (execute env info name st).events) := by
  refine ⟨?_, ?_, ?_, ?_, ?_⟩
  · intro ho
    simp [execute, hlock, ho]
  · intro ho
    simp [execute, hlock, ho]
  · intro ho
    simp [execute, hlock, ho]
  · intro ho
    simp [execute, hlock, ho]
  · intro msg ho
    simp [execute, hlock, ho]

/-- Witness for C4: the missing-hook run on a blank state yields the
Done state with no error and no notifications. -/
theorem execute_outcome_map_witness :
    (execute envMissing cfgInfo "some-hook-name" blankState).state =
        some (executedState blankState cfgInfo Step.Done) ∧
      (execute envMissing cfgInfo "some-hook-name" blankState).err = none ∧
      Event.notifyHookCompleted "some-hook-name" ∉
        (execute envMissing cfgInfo "some-hook-name" blankState).events ∧
      Event.notifyHookFailed "some-hook-name" ∉
        (execute envMissing cfgInfo "some-hook-name" blankState).events :=
  (execute_outcome_map envMissing cfgInfo "some-hook-name" blankState
      rfl).2.1 rfl

/-- C5: whenever lock acquisition succeeds, Execute records exactly
one lock release — whatever the runner outcome (success, failure,
missing hook, or either reboot signal) — and the acquisition carries
the message "running hook <hook-name>"; when acquisition fails,
Execute returns that error verbatim with no state, never invokes the
runner, and releases nothing. -/
theorem execute_lock_discipline (env : Env) (info : Info) (name : String)
    (st : State) :
    (env.acquireLockErr = none →
        Event.acquireLock ("running hook " ++ name) ∈
          (execute env info name st).events ∧
        countRelease (execute env info name st).events = 1)
  ∧ (∀ msg, env.acquireLockErr = some msg →
        (execute env info name st).state = none ∧
        (execute env info name st).err = some (OpError.collab msg) ∧
        countRuns (execute env info name st).events = 0 ∧
        countRelease (execute env info name st).events = 0 ∧
        Event.acquireLock ("running hook " ++ name) ∈
          (execute env info name st).events) := by
  constructor
  · intro hlock
    cases ho : env.runOutcome <;>
      simp [execute, hlock, ho, countRelease]
  · intro msg hlock
    simp [execute, hlock, countRuns, countRelease]

/-- Witness for C5: a successful run on the all-ok environment
acquires the lock with the right message and releases it exactly
once. -/
theorem execute_lock_discipline_witness :
    Event.acquireLock ("running hook " ++ "some-hook-name") ∈
        (execute envAllOk cfgInfo "some-hook-name" blankState).events ∧
      countRelease
        (execute envAllOk cfgInfo "some-hook-name" blankState).events = 1 :=
  (execute_lock_discipline envAllOk cfgInfo "some-hook-name" blankState).1 rfl

/-- An environment whose clear-resolved-flag callback fails with
"biff" and whose other collaborators succeed. -/
def envClearFail : Env :=
  ⟨some "biff", Except.ok "some-hook-name", none, none,
    RunOutcome.success, none⟩

/-- An environment whose prepare-hook callback fails with "pow" and
whose other collaborators succeed. -/
def envPrepFail : Env :=
  ⟨none, Except.error "pow", none, none, RunOutcome.success, none⟩

/-- C6: Skip's Prepare clears the resolved marker first (it is the
first recorded event), never invokes the hook-specific preparation
callback, and when the clear succeeds returns the `ErrSkipExecute`
signal with no state; and Commit is shared verbatim across the
variants, so Skip's Commit output is identical to Run's and Retry's
on the same input state and hook identity. -/
theorem skip_prepare_and_commit (env : Env) (info : Info) (st : State)
    (now : Int) :
    (env.clearResolvedFlagErr = none →
        prepare env Variant.Skip info st =
          ⟨[Event.clearResolvedFlag], none, some OpError.ErrSkipExecute,
            none⟩)
  ∧ (∀ info2, Event.prepareHook info2 ∉
        (prepare env Variant.Skip info st).events)
  ∧ ((prepare env Variant.Skip info st).events.head? =
        some Event.clearResolvedFlag)
  ∧ (commitV Variant.Skip env info st now =
      commitV Variant.Run env info st now)
  ∧ (commitV Variant.Skip env info st now =
      commitV Variant.Retry env info st now) := by
  refine ⟨?_, ?_, ?_, rfl, rfl⟩
  · intro hc
    simp [prepare, hc]
  · intro info2
    cases hc : env.clearResolvedFlagErr <;> simp [prepare, hc]
  · cases hc : env.clearResolvedFlagErr <;> simp [prepare, hc]

/-- Witness for C6: with all collaborators succeeding, Skip's Prepare
clears the flag and signals `ErrSkipExecute` with no state. -/
theorem skip_prepare_and_commit_witness :
    prepare envAllOk Variant.Skip cfgInfo blankState =
      ⟨[Event.clearResolvedFlag], none, some OpError.ErrSkipExecute, none⟩ :=
  (skip_prepare_and_commit envAllOk cfgInfo blankState 5).1 rfl

/-- C7: every collaborator failure — clear-resolved-flag (Retry and
Skip, the variants that invoke it), prepare-hook,
runner-construction, lock-acquire, commit-hook — makes its phase
return that error verbatim together with no state, so the aborted
phase produces no state transition. -/
theorem collaborator_errors_verbatim (env : Env) (v : Variant) (info : Info)
    (name nm : String) (st : State) (now : Int) :
    (∀ msg, env.clearResolvedFlagErr = some msg → v ≠ Variant.Run →
        (prepare env v info st).state = none ∧
        (prepare env v info st).err = some (OpError.collab msg))
  ∧ (∀ msg, v ≠ Variant.Skip → env.clearResolvedFlagErr = none →
        env.prepareHookResult = Except.error msg →
        (prepare env v info st).state = none ∧
        (prepare env v info st).err = some (OpError.collab msg))
  ∧ (∀ msg, v ≠ Variant.Skip → env.clearResolvedFlagErr = none →
        env.prepareHookResult = Except.ok nm →
        env.newRunnerErr = some msg →
        (prepare env v info st).state = none ∧
        (prepare env v info st).err = some (OpError.collab msg))
  ∧ (∀ msg, env.acquireLockErr = some msg →
        (execute env info name st).state = none ∧
        (execute env info name st).err = some (OpError.collab msg))
  ∧ (∀ msg, env.commitHookErr = some msg →
        (commitV v env info st now).state = none ∧
        (commitV v env info st now).err = some (OpError.collab msg)) := by
  refine ⟨?_, ?_, ?_, ?_, ?_⟩
  · intro msg hmsg hv
    cases v with
    | Run => exact absurd rfl hv
    | Retry => simp [prepare, hmsg]
    | Skip => simp [prepare, hmsg]
  · intro msg hv hc hp
    cases v with
    | Run => simp [prepare, prepareFromRun, hp]
    | Retry => simp [prepare, prepareFromRun, hc, hp]
    | Skip => exact absurd rfl hv
  · intro msg hv hc hp hr
    cases v with
    | Run => simp [prepare, prepareFromRun, hp, hr]
    | Retry => simp [prepare, prepareFromRun, hc, hp, hr]
    | Skip => exact absurd rfl hv
  · intro msg hmsg
    simp [execute, hmsg]
  · intro msg hmsg
    simp [commitV, commit, hmsg]

/-- Witness for C7: Retry's Prepare with a failing clear-resolved-flag
callback returns no state and the error "biff" verbatim. -/
theorem collaborator_errors_verbatim_witness :
    (prepare envClearFail Variant.Retry cfgInfo blankState).state = none ∧
      (prepare envClearFail Variant.Retry cfgInfo blankState).err =
        some (OpError.collab "biff") :=
  (collaborator_errors_verbatim envClearFail Variant.Retry cfgInfo
      "some-hook-name" "some-hook-name" blankState 5).1 "biff" rfl
    (by decide)

/-- C9 counterexample: Execute on a missing hook with the blank input
state (whose `Hook` is absent) returns a state whose `Hook` is the
operation's own hook identity, not the input's absent `Hook` — so the
returned `Hook` does not equal the input's `Hook` for every input
state. This is exactly the repository's `testExecuteMissingHookError`
scenario: input `State{}` yields
`&State{Kind:RunHook, Step:Done, Hook:{Kind:ConfigChanged}}`. -/
theorem execute_hook_overwrites_input_hook :
    (execute envMissing cfgInfo "some-hook-name" blankState).state =
        some ⟨Kind.RunHook, Step.Done, some cfgInfo, false, 0⟩ ∧
      blankState.hook = none ∧
      ((execute envMissing cfgInfo "some-hook-name" blankState).state.map
          State.hook) ≠ some blankState.hook := by
  refine ⟨rfl, rfl, ?_⟩
  decide

/-- C9 amended: every Execute outcome that returns a state (success,
missing hook, reboot, requeue-and-reboot) sets the returned `Hook` to
the operation's own hook identity; consequently, whenever the input
state's `Hook` already names the operation's hook — the normal case,
as arranged by Prepare — the `Hook` field is unchanged. An input
whose `Hook` is absent or names a different hook is overwritten, not
preserved. -/
theorem execute_hook_is_op_hook (env : Env) (info : Info) (name : String)
    (st : State) :
    (∀ out, (execute env info name st).state = some out →
        out.hook = some info)
  ∧ (st.hook = some info →
      ∀ out, (execute env info name st).state = some out →
        out.hook = st.hook) := by
  constructor
  · intro out h
    rcases execute_state_cases env info name st out h with h1 | h1 <;>
      subst h1 <;> rfl
  · intro hst out h
    rcases execute_state_cases env info name st out h with h1 | h1 <;>
      subst h1 <;> exact hst.symm

/-- Witness for C9's amended claim: the missing-hook run on the blank
state returns the operation's ConfigChanged hook identity. -/
theorem execute_hook_is_op_hook_witness :
    (⟨Kind.RunHook, Step.Done, some cfgInfo, false, (0 : Int)⟩ :
        State).hook = some cfgInfo :=
  (execute_hook_is_op_hook envMissing cfgInfo "some-hook-name" blankState).1
    ⟨Kind.RunHook, Step.Done, some cfgInfo, false, 0⟩ rfl

/-- C10: for Retry, Prepare invokes the clear-resolved-flag callback
before the hook-specific preparation callback (the trace is exactly
[clearResolvedFlag, prepareHook]); when the clear succeeds but the
preparation callback then fails, Prepare returns the preparation
error with no state while the clear has already taken effect and is
not undone — it stays in the trace, and no undoing collaborator call
exists. For Skip under the same environment the clear is likewise
invoked (and is the whole trace), the preparation callback never. -/
theorem retry_clear_before_prepare (env : Env) (info : Info) (st : State)
    (msg : String) (hc : env.clearResolvedFlagErr = none)
    (hp : env.prepareHookResult = Except.error msg) :
    prepare env Variant.Retry info st =
      ⟨[Event.clearResolvedFlag, Event.prepareHook info], none,
        some (OpError.collab msg), none⟩
  ∧ Event.clearResolvedFlag ∈ (prepare env Variant.Retry info st).events
  ∧ (prepare env Variant.Retry info st).events.head? =
      some Event.clearResolvedFlag
  ∧ (prepare env Variant.Skip info st).events =
      [Event.clearResolvedFlag] := by
  refine ⟨?_, ?_, ?_, ?_⟩ <;> simp [prepare, prepareFromRun, hc, hp]

/-- Witness for C10: with the clear succeeding and the prepare-hook
callback failing with "pow", Retry's Prepare records the clear, then
the preparation attempt, and aborts with "pow" and no state. -/
theorem retry_clear_before_prepare_witness :
    prepare envPrepFail Variant.Retry cfgInfo blankState =
      ⟨[Event.clearResolvedFlag, Event.prepareHook cfgInfo], none,
        some (OpError.collab "pow"), none⟩ :=
  (retry_clear_before_prepare envPrepFail cfgInfo blankState "pow" rfl
      rfl).1

end Operation
